import Mathlib

/-!
Verification development for the `openzalo` messaging-channel adapter.

The definitions below are shallow embeddings of the TypeScript sources:
  * the outbound dedupe guard (`src/index.ts`, sha256-signature version:
    `buildSignature`, `acquireOpenzaloOutboundDedupeSlot`,
    `releaseOpenzaloOutboundDedupeSlot`, `pruneExpired`, `evictRecentOverflow`),
  * the inbound message pipeline of `src/src/monitor.ts` (`processMessage`),
  * the listener restart scheduling of `src/src/monitor.ts` (`startListener`),
  * the transport runner and send-result normalization
    (`src/unnamed/part_005` `runOpenzca`, `src/src/send.ts` `sendMessageOpenzalo`,
    `extractMessageId`),
  * the unsend/undo id-resolution chain of `src/src/channel.ts`
    (`handleAction` case `unsend`, `cacheUndoRef`, `findCachedUndoRef`,
    `resolveLatestOwnUndoRefFromRecent`, `isOwnRecentMessageSender`,
    `extractUndoRefFromRecentRow`).

JavaScript `Map` objects are modelled as insertion-ordered association lists
(`get` finds the first matching key, `set` updates in place or appends,
`delete` removes the key).  Times are naturals (Unix ms).
-/

namespace Openzalo

/-- JS-Map lookup: first entry with the given key. -/
def mapGet {κ β : Type} [DecidableEq κ] (m : List (κ × β)) (k : κ) : Option β :=
  (m.find? (fun p => p.1 = k)).map (fun p => p.2)

/-- JS-Map set: update the existing entry in place (keeping its position) or append. -/
def mapSet {κ β : Type} [DecidableEq κ] (m : List (κ × β)) (k : κ) (v : β) : List (κ × β) :=
  if m.any (fun p => p.1 = k) then
    m.map (fun p => if p.1 = k then (k, v) else p)
  else
    m ++ [(k, v)]

/-- JS-Map delete. -/
def mapDel {κ β : Type} [DecidableEq κ] (m : List (κ × β)) (k : κ) : List (κ × β) :=
  m.filter (fun p => ¬(p.1 = k))

theorem mapGet_nil {κ β : Type} [DecidableEq κ] (k : κ) :
    mapGet ([] : List (κ × β)) k = none := rfl

theorem mapGet_eq_none_iff {κ β : Type} [DecidableEq κ] (m : List (κ × β)) (k : κ) :
    mapGet m k = none ↔ ∀ p ∈ m, p.1 ≠ k := by
  simp [mapGet, List.find?_eq_none]

theorem mapGet_append_right {κ β : Type} [DecidableEq κ] (m : List (κ × β)) (k : κ) (v : β)
    (h : mapGet m k = none) : mapGet (m ++ [(k, v)]) k = some v := by
  simp only [mapGet] at h
  rcases hfind : m.find? (fun p => p.1 = k) with _ | p
  · simp only [mapGet, List.find?_append, hfind, Option.none_orElse]
    simp [List.find?]
  · simp [hfind] at h

theorem mapGet_del_self {κ β : Type} [DecidableEq κ] (m : List (κ × β)) (k : κ) :
    mapGet (mapDel m k) k = none := by
  rw [mapGet_eq_none_iff]
  intro p hp
  simp only [mapDel, List.mem_filter, decide_not] at hp
  simpa using hp.2

theorem mapGet_filter_none {κ β : Type} [DecidableEq κ] (m : List (κ × β)) (k : κ)
    (q : κ × β → Bool) (h : mapGet m k = none) :
    mapGet (m.filter q) k = none := by
  rw [mapGet_eq_none_iff] at h ⊢
  intro p hp
  exact h p (List.mem_of_mem_filter hp)

theorem mapGet_replace_of_found {κ β : Type} [DecidableEq κ] (k : κ) (v : β) :
    ∀ (m : List (κ × β)), (m.find? (fun p => p.1 = k)).isSome →
      mapGet (m.map (fun p => if p.1 = k then (k, v) else p)) k = some v := by
  intro m
  induction m with
  | nil => intro h; simp [List.find?] at h
  | cons p t ih =>
    intro h
    by_cases hk : p.1 = k
    · simp [mapGet, List.find?, hk]
    · rw [List.find?_cons_of_neg _ (by simpa using hk)] at h
      simp only [List.map_cons, if_neg hk]
      have hrec := ih h
      simp only [mapGet, List.find?] at hrec ⊢
      rw [show (decide (p.1 = k)) = false by simpa using hk]
      exact hrec

theorem mapGet_set_self {κ β : Type} [DecidableEq κ] (m : List (κ × β)) (k : κ) (v : β) :
    mapGet (mapSet m k v) k = some v := by
  unfold mapSet
  split
  · rename_i hany
    apply mapGet_replace_of_found
    rw [List.find?_isSome]
    simpa using hany
  · rename_i hany
    apply mapGet_append_right
    rw [mapGet_eq_none_iff]
    intro p hp
    by_contra heq
    apply hany
    rw [List.any_eq_true]
    exact ⟨p, hp, by simpa using heq⟩

/-! Decimal-representation helpers: `Nat.repr` is injective.  The dedupe
signature folds the normalized sequence number in via its decimal string
(`String(Math.max(1, Math.floor(params.sequence)))` in the source), so
distinguishing sequence numbers reduces to injectivity of `Nat.repr`. -/

/-- Numeric value of a decimal digit character. -/
def chVal (c : Char) : Nat := c.toNat - 48

/-- Value of a most-significant-first decimal digit list. -/
def digitsVal (l : List Char) : Nat := l.foldl (fun a c => 10 * a + chVal c) 0

theorem digitsVal_append_singleton (l : List Char) (c : Char) :
    digitsVal (l ++ [c]) = 10 * digitsVal l + chVal c := by
  simp [digitsVal, List.foldl_append]

theorem chVal_digitChar (k : Nat) (h : k < 10) : chVal (Nat.digitChar k) = k := by
  interval_cases k <;> decide

theorem toDigitsCore_append (b : Nat) :
    ∀ (f n : Nat) (ds : List Char),
      Nat.toDigitsCore b (f + 1) n ds = Nat.toDigitsCore b (f + 1) n [] ++ ds := by
  intro f
  induction f with
  | zero =>
    intro n ds
    simp only [Nat.toDigitsCore]
    split <;> simp
  | succ f ih =>
    intro n ds
    generalize hg : f + 1 = g at ih ⊢
    simp only [Nat.toDigitsCore]
    split
    · simp
    · rw [ih (n / b) (Nat.digitChar (n % b) :: ds), ih (n / b) [Nat.digitChar (n % b)]]
      simp

theorem digitsVal_toDigitsCore :
    ∀ (f n : Nat), n < f → digitsVal (Nat.toDigitsCore 10 f n []) = n := by
  intro f
  induction f with
  | zero => intro n h; omega
  | succ f ih =>
    intro n h
    simp only [Nat.toDigitsCore]
    split
    · rename_i hdiv
      have hn : n < 10 := by
        rwa [Nat.div_eq_zero_iff (by norm_num)] at hdiv
      have hmod : n % 10 = n := Nat.mod_eq_of_lt hn
      simp only [digitsVal, List.foldl, Nat.mul_zero, Nat.zero_add, hmod]
      simpa [digitsVal] using chVal_digitChar n hn
    · rename_i hdiv
      have hge : 10 ≤ n := by
        by_contra hlt
        exact hdiv (Nat.div_eq_zero_iff (by norm_num) |>.mpr (by omega))
      obtain ⟨g, rfl⟩ : ∃ g, f = g + 1 := ⟨f - 1, by omega⟩
      rw [toDigitsCore_append 10 g (n / 10) [Nat.digitChar (n % 10)],
        digitsVal_append_singleton,
        ih (n / 10) (by
          have := Nat.div_lt_self (by omega : 0 < n) (by norm_num : 1 < 10)
          omega)]
      rw [chVal_digitChar (n % 10) (Nat.mod_lt _ (by norm_num))]
      omega

theorem digitsVal_repr (n : Nat) : digitsVal (Nat.repr n).data = n := by
  have hdata : (Nat.repr n).data = Nat.toDigits 10 n := by
    simp [Nat.repr, List.asString]
  rw [hdata, Nat.toDigits]
  exact digitsVal_toDigitsCore (n + 1) n (Nat.lt_succ_self n)

theorem natRepr_injective : Function.Injective Nat.repr := by
  intro m n h
  have hval : digitsVal (Nat.repr m).data = digitsVal (Nat.repr n).data := by rw [h]
  rwa [digitsVal_repr, digitsVal_repr] at hval

/-! ### Outbound dedupe guard

Embeds the sha256-signature version of the module in `src/index.ts`
(constants `OPENZALO_OUTBOUND_RECENT_TTL_MS` / `MAX_OPENZALO_OUTBOUND_RECENT_SIGNATURES`,
`buildSignature`, `pruneExpired`, `evictRecentOverflow`,
`acquireOpenzaloOutboundDedupeSlot`, `releaseOpenzaloOutboundDedupeSlot`).
The source feeds the field sequence, joined by the `"\x1f"` separator, into a
SHA-256 hash and keys the maps by the hex digest.  We model the digest by its
preimage string: under the standard collision-freedom assumption on SHA-256,
digest equality coincides with preimage equality, so every equality or
inequality fact about signatures transfers. -/

def OPENZALO_OUTBOUND_RECENT_TTL_MS : Nat := 15000

def MAX_OPENZALO_OUTBOUND_RECENT_SIGNATURES : Nat := 5000

inductive SendKind
  | text
  | media
deriving DecidableEq

/-- The literal kind string hashed into the signature (`params.kind`). -/
def SendKind.toKindString : SendKind → String
  | .text => "text"
  | .media => "media"

/-- Parameters of `acquireOpenzaloOutboundDedupeSlot` / `buildSignature`.
`sequence` is a JS number in the source; callers always pass positive
integers (per-chunk counters starting at 1), modelled as `Option Nat`. -/
structure SendParams where
  accountId : String
  sessionKey : Option String
  target : String
  kind : SendKind
  text : Option String
  mediaRef : Option String
  sequence : Option Nat

/-- Source: `(value ?? "").trim()`. -/
def normalizeIdentity (v : Option String) : String := (v.getD "").trim

/-- The `"\x1f"` field separator written between `hash.update` calls. -/
def SIG_SEP : String := "\x1f"

/-- Source: `Number.isFinite(...) ? String(Math.max(1, Math.floor(sequence))) : "1"`. -/
def normalizeSequenceField (seq : Option Nat) : String :=
  match seq with
  | some s => Nat.repr (max 1 s)
  | none => "1"

/-- The byte sequence fed to the SHA-256 hash by `buildSignature`
(`src/index.ts`): trimmed accountId, sessionKey (or `"-"`), trimmed target,
kind, normalized sequence, raw text, raw mediaRef, joined by `"\x1f"`. -/
def buildSignature (p : SendParams) : String :=
  normalizeIdentity (some p.accountId) ++ SIG_SEP ++
  (if normalizeIdentity p.sessionKey = "" then "-" else normalizeIdentity p.sessionKey) ++
  SIG_SEP ++
  normalizeIdentity (some p.target) ++ SIG_SEP ++
  p.kind.toKindString ++ SIG_SEP ++
  normalizeSequenceField p.sequence ++ SIG_SEP ++
  p.text.getD "" ++ SIG_SEP ++
  p.mediaRef.getD ""

structure DedupeEntry where
  ticketId : Nat
  signature : String
  createdAt : Nat
deriving DecidableEq

structure DedupeTicket where
  id : Nat
  signature : String
deriving DecidableEq

inductive RejectReason
  | inflight
  | recent
deriving DecidableEq

inductive AcquireOutcome
  | acquired (ticket : DedupeTicket)
  | rejected (reason : RejectReason)
deriving DecidableEq

/-- The module-level mutable maps plus the ticket counter. -/
structure DedupeState where
  inflightBySignature : List (String × DedupeEntry)
  inflightByTicket : List (Nat × DedupeEntry)
  recentBySignature : List (String × Nat)
  nextTicketId : Nat
deriving DecidableEq

/-- State produced by `resetOpenzaloOutboundDedupeForTests`. -/
def emptyDedupeState : DedupeState := ⟨[], [], [], 0⟩

/-- Source: `while (recentBySignature.size > MAX) delete oldest key`. -/
def evictRecentOverflow : List (String × Nat) → List (String × Nat)
  | [] => []
  | (k, v) :: rest =>
    if rest.length + 1 > MAX_OPENZALO_OUTBOUND_RECENT_SIGNATURES then
      evictRecentOverflow (mapDel ((k, v) :: rest) k)
    else
      (k, v) :: rest
termination_by m => m.length
decreasing_by
  have hlen := List.length_filter_le (fun p => !decide (p.1 = k)) rest
  simp [mapDel, List.filter_cons]
  omega

/-- Source: `pruneExpired(nowMs)` — drops expired recently-sent entries and
sweeps in-flight entries older than four TTLs from both in-flight maps. -/
def pruneExpired (s : DedupeState) (now : Nat) : DedupeState :=
  let staleCutoff := now - OPENZALO_OUTBOUND_RECENT_TTL_MS * 4
  { s with
    recentBySignature := s.recentBySignature.filter (fun p => ¬(p.2 ≤ now)),
    inflightBySignature :=
      s.inflightBySignature.filter (fun p => ¬(p.2.createdAt < staleCutoff)),
    inflightByTicket :=
      s.inflightByTicket.filter (fun q =>
        ¬(s.inflightBySignature.any (fun p =>
          decide (p.2.createdAt < staleCutoff) && decide (p.2.ticketId = q.1)))) }

/-- Source: `acquireOpenzaloOutboundDedupeSlot(params, nowMs)`. -/
def acquireOpenzaloOutboundDedupeSlot (p : SendParams) (s : DedupeState) (now : Nat) :
    AcquireOutcome × DedupeState :=
  let s1 := pruneExpired s now
  let signature := buildSignature p
  let recentHit : Bool :=
    match mapGet s1.recentBySignature signature with
    | some recentUntil => decide (recentUntil > now)
    | none => false
  if recentHit then
    (.rejected .recent, s1)
  else if (mapGet s1.inflightBySignature signature).isSome then
    (.rejected .inflight, s1)
  else
    let tid := s1.nextTicketId + 1
    let entry : DedupeEntry := ⟨tid, signature, now⟩
    (.acquired ⟨tid, signature⟩,
      { inflightBySignature := mapSet s1.inflightBySignature signature entry,
        inflightByTicket := mapSet s1.inflightByTicket tid entry,
        recentBySignature := s1.recentBySignature,
        nextTicketId := tid })

/-- Source: `releaseOpenzaloOutboundDedupeSlot({ticket, sent, nowMs})`. -/
def releaseOpenzaloOutboundDedupeSlot (s : DedupeState) (ticket : DedupeTicket)
    (sent : Bool) (now : Nat) : DedupeState :=
  match mapGet s.inflightByTicket ticket.id with
  | none => s
  | some entry =>
    if entry.signature ≠ ticket.signature then s
    else
      let s1 : DedupeState :=
        { s with
          inflightByTicket := mapDel s.inflightByTicket entry.ticketId,
          inflightBySignature := mapDel s.inflightBySignature entry.signature }
      if sent then
        { s1 with
          recentBySignature :=
            evictRecentOverflow (mapSet s1.recentBySignature entry.signature
              (now + OPENZALO_OUTBOUND_RECENT_TTL_MS)) }
      else s1

def AcquireOutcome.isAcquired : AcquireOutcome → Bool
  | .acquired _ => true
  | .rejected _ => false

theorem sig_ne_of_seq_ne (acc : String) (sess : Option String) (targ : String)
    (kind : SendKind) (txt mediaRef : Option String) (s1 s2 : Nat)
    (h1 : 1 ≤ s1) (h2 : 1 ≤ s2) (hne : s1 ≠ s2) :
    buildSignature ⟨acc, sess, targ, kind, txt, mediaRef, some s1⟩ ≠
      buildSignature ⟨acc, sess, targ, kind, txt, mediaRef, some s2⟩ := by
  intro h
  have hd := congrArg String.data h
  simp only [buildSignature, String.data_append, List.append_assoc] at hd
  have c1 := List.append_cancel_left hd
  have c2 := List.append_cancel_left c1
  have c3 := List.append_cancel_left c2
  have c4 := List.append_cancel_left c3
  have c5 := List.append_cancel_left c4
  have c6 := List.append_cancel_left c5
  have c7 := List.append_cancel_left c6
  have c8 := List.append_cancel_left c7
  have hseq := List.append_cancel_right c8
  have hstr : normalizeSequenceField (some s1) = normalizeSequenceField (some s2) :=
    String.ext hseq
  simp only [normalizeSequenceField] at hstr
  have hmax := natRepr_injective hstr
  omega

theorem sig_ne_of_text_ne (acc : String) (sess : Option String) (targ : String)
    (kind : SendKind) (mediaRef : Option String) (sq : Option Nat)
    (txtA txtB : String) (htxt : txtA ≠ txtB) :
    buildSignature ⟨acc, sess, targ, kind, some txtA, mediaRef, sq⟩ ≠
      buildSignature ⟨acc, sess, targ, kind, some txtB, mediaRef, sq⟩ := by
  intro h
  have hd := congrArg String.data h
  simp only [buildSignature, String.data_append, List.append_assoc] at hd
  have c1 := List.append_cancel_left hd
  have c2 := List.append_cancel_left c1
  have c3 := List.append_cancel_left c2
  have c4 := List.append_cancel_left c3
  have c5 := List.append_cancel_left c4
  have c6 := List.append_cancel_left c5
  have c7 := List.append_cancel_left c6
  have c8 := List.append_cancel_left c7
  have c9 := List.append_cancel_left c8
  have c10 := List.append_cancel_left c9
  have htx := List.append_cancel_right c10
  exact htxt (String.ext (by simpa using htx))

theorem acquire_of_pruned_misses (p : SendParams) (s : DedupeState) (now : Nat)
    (hrec : mapGet (pruneExpired s now).recentBySignature (buildSignature p) = none)
    (hinf : mapGet (pruneExpired s now).inflightBySignature (buildSignature p) = none) :
    (acquireOpenzaloOutboundDedupeSlot p s now).1.isAcquired = true := by
  simp [acquireOpenzaloOutboundDedupeSlot, hrec, hinf, AcquireOutcome.isAcquired]

theorem acquire_of_misses (p : SendParams) (s : DedupeState) (now : Nat)
    (hrec : mapGet s.recentBySignature (buildSignature p) = none)
    (hinf : mapGet s.inflightBySignature (buildSignature p) = none) :
    (acquireOpenzaloOutboundDedupeSlot p s now).1.isAcquired = true := by
  apply acquire_of_pruned_misses
  · simp only [pruneExpired]
    exact mapGet_filter_none _ _ _ hrec
  · simp only [pruneExpired]
    exact mapGet_filter_none _ _ _ hinf


theorem mapGet_singleton_ne {κ β : Type} [DecidableEq κ] (k1 k2 : κ) (v : β)
    (h : k2 ≠ k1) : mapGet [(k1, v)] k2 = none := by
  rw [mapGet_eq_none_iff]
  intro p hp
  simp only [List.mem_singleton] at hp
  subst hp
  exact fun hk => h hk.symm

theorem acquire_first_state (p : SendParams) (now : Nat) :
    acquireOpenzaloOutboundDedupeSlot p emptyDedupeState now =
      (.acquired ⟨1, buildSignature p⟩,
        ⟨[(buildSignature p, ⟨1, buildSignature p, now⟩)],
         [(1, ⟨1, buildSignature p, now⟩)], [], 1⟩) := by
  simp [acquireOpenzaloOutboundDedupeSlot, pruneExpired, emptyDedupeState, mapGet, mapSet,
    List.find?]

/-- C2: the outbound dedupe signature distinguishes payloads that differ
anywhere in their content.  Two acquire parameter sets that differ only in the
sequence number have distinct signatures and acquire independently (both
succeed, here from the reset state), and two text chunks with different full
text — in particular chunks sharing a long common 1500-character head but
differing in their suffix — never map to the same signature: `buildSignature`
hashes the complete text, not a truncated head. -/
theorem outbound_dedupe_signature_full_content
    (acc : String) (sess : Option String) (targ : String) (kind : SendKind)
    (txt mediaRef : Option String) (s1 s2 : Nat) (txtA txtB : String)
    (sq : Option Nat) (now1 now2 : Nat)
    (h1 : 1 ≤ s1) (h2 : 1 ≤ s2) (hseq : s1 ≠ s2) (htxt : txtA ≠ txtB) :
    buildSignature ⟨acc, sess, targ, kind, txt, mediaRef, some s1⟩ ≠
      buildSignature ⟨acc, sess, targ, kind, txt, mediaRef, some s2⟩ ∧
    buildSignature ⟨acc, sess, targ, kind, some txtA, mediaRef, sq⟩ ≠
      buildSignature ⟨acc, sess, targ, kind, some txtB, mediaRef, sq⟩ ∧
    (acquireOpenzaloOutboundDedupeSlot ⟨acc, sess, targ, kind, txt, mediaRef, some s1⟩
      emptyDedupeState now1).1.isAcquired = true ∧
    (acquireOpenzaloOutboundDedupeSlot ⟨acc, sess, targ, kind, txt, mediaRef, some s2⟩
      (acquireOpenzaloOutboundDedupeSlot ⟨acc, sess, targ, kind, txt, mediaRef, some s1⟩
        emptyDedupeState now1).2 now2).1.isAcquired = true := by
  have hsig := sig_ne_of_seq_ne acc sess targ kind txt mediaRef s1 s2 h1 h2 hseq
  refine ⟨hsig, sig_ne_of_text_ne acc sess targ kind mediaRef sq txtA txtB htxt, ?_, ?_⟩
  · rw [acquire_first_state]
    rfl
  · rw [acquire_first_state]
    apply acquire_of_misses
    · exact mapGet_nil _
    · exact mapGet_singleton_ne _ _ _ (fun h => hsig h.symm)

theorem longChunks_ne :
    String.mk (List.replicate 1500 'a') ++ "x" ≠
      String.mk (List.replicate 1500 'a') ++ "y" := by
  intro h
  have hd := congrArg String.data h
  simp only [String.data_append] at hd
  have hxy := List.append_cancel_left hd
  simp at hxy

/-- Concrete witness for C2: two text chunks sharing a 1500-character head. -/
theorem outbound_dedupe_signature_full_content_witness :
    ((1 ≤ 1 ∧ 1 ≤ 2) ∧ 1 ≠ 2 ∧
      String.mk (List.replicate 1500 'a') ++ "x" ≠
        String.mk (List.replicate 1500 'a') ++ "y") ∧
    ((acquireOpenzaloOutboundDedupeSlot
        ⟨"main", some "s1", "user:123", .text, some "hello", none, some 2⟩
        (acquireOpenzaloOutboundDedupeSlot
          ⟨"main", some "s1", "user:123", .text, some "hello", none, some 1⟩
          emptyDedupeState 1000).2 1000).1.isAcquired = true) := by
  refine ⟨⟨⟨by decide, by decide⟩, by decide, longChunks_ne⟩, ?_⟩
  exact (outbound_dedupe_signature_full_content "main" (some "s1") "user:123" .text
    (some "hello") none 1 2 (String.mk (List.replicate 1500 'a') ++ "x")
    (String.mk (List.replicate 1500 'a') ++ "y") (some 1) 1000 1000
    (by decide) (by decide) (by decide) longChunks_ne).2.2.2

/-- C10: releasing a dedupe slot with a stale ticket id or a mismatched
signature is a no-op: the state (both in-flight maps and the recently-sent
window) is returned unchanged, regardless of the `sent` flag. -/
theorem release_stale_ticket_noop (s : DedupeState) (tk : DedupeTicket)
    (sent : Bool) (now : Nat)
    (h : mapGet s.inflightByTicket tk.id = none ∨
      ∃ e, mapGet s.inflightByTicket tk.id = some e ∧ e.signature ≠ tk.signature) :
    releaseOpenzaloOutboundDedupeSlot s tk sent now = s := by
  unfold releaseOpenzaloOutboundDedupeSlot
  rcases h with h | ⟨e, he, hne⟩
  · rw [h]
  · rw [he]
    simp [hne]

/-- Concrete witness for C10: a live entry whose signature does not match the
presented ticket, released with `sent = true`, leaves the state untouched. -/
theorem release_stale_ticket_noop_witness :
    (mapGet ([(7, (⟨7, "sig", 0⟩ : DedupeEntry))] : List (Nat × DedupeEntry)) 7 =
        some ⟨7, "sig", 0⟩ ∧
      (⟨7, "sig", 0⟩ : DedupeEntry).signature ≠ (⟨7, "other"⟩ : DedupeTicket).signature) ∧
    releaseOpenzaloOutboundDedupeSlot
        ⟨[("sig", ⟨7, "sig", 0⟩)], [(7, ⟨7, "sig", 0⟩)], [("r", 99)], 7⟩
        ⟨7, "other"⟩ true 1000 =
      ⟨[("sig", ⟨7, "sig", 0⟩)], [(7, ⟨7, "sig", 0⟩)], [("r", 99)], 7⟩ := by
  refine ⟨⟨by decide, by decide⟩, ?_⟩
  exact release_stale_ticket_noop _ _ true 1000
    (Or.inr ⟨⟨7, "sig", 0⟩, by decide, by decide⟩)

theorem mapSet_append_of_none {κ β : Type} [DecidableEq κ] (m : List (κ × β)) (k : κ) (v : β)
    (h : mapGet m k = none) : mapSet m k v = m ++ [(k, v)] := by
  unfold mapSet
  rw [if_neg]
  intro hany
  rw [List.any_eq_true] at hany
  obtain ⟨p, hp, hk⟩ := hany
  rw [mapGet_eq_none_iff] at h
  exact h p hp (by simpa using hk)

theorem evictRecentOverflow_noop (m : List (String × Nat))
    (h : m.length ≤ MAX_OPENZALO_OUTBOUND_RECENT_SIGNATURES) :
    evictRecentOverflow m = m := by
  cases m with
  | nil => simp [evictRecentOverflow]
  | cons p rest =>
    obtain ⟨k, v⟩ := p
    unfold evictRecentOverflow
    rw [if_neg]
    simp only [List.length_cons] at h
    omega

theorem pruned_recent_gt (s : DedupeState) (now : Nat) (k : String) (u : Nat)
    (h : mapGet (pruneExpired s now).recentBySignature k = some u) : now < u := by
  simp only [mapGet] at h
  obtain ⟨q, hfind, hq2⟩ := Option.map_eq_some'.mp h
  have hmem := List.mem_of_find?_eq_some hfind
  simp only [pruneExpired] at hmem
  have hpred := List.of_mem_filter hmem
  have hlt : now < q.2 := by simpa using hpred
  have hqu : q.2 = u := hq2
  omega

theorem acquire_acquired_inv (p : SendParams) (s : DedupeState) (now : Nat)
    (tk : DedupeTicket) (s1 : DedupeState)
    (h : acquireOpenzaloOutboundDedupeSlot p s now = (.acquired tk, s1)) :
    tk = ⟨(pruneExpired s now).nextTicketId + 1, buildSignature p⟩ ∧
    mapGet (pruneExpired s now).recentBySignature (buildSignature p) = none ∧
    mapGet (pruneExpired s now).inflightBySignature (buildSignature p) = none ∧
    s1 = ⟨mapSet (pruneExpired s now).inflightBySignature (buildSignature p)
            ⟨(pruneExpired s now).nextTicketId + 1, buildSignature p, now⟩,
          mapSet (pruneExpired s now).inflightByTicket
            ((pruneExpired s now).nextTicketId + 1)
            ⟨(pruneExpired s now).nextTicketId + 1, buildSignature p, now⟩,
          (pruneExpired s now).recentBySignature,
          (pruneExpired s now).nextTicketId + 1⟩ := by
  rcases hg : mapGet (pruneExpired s now).recentBySignature (buildSignature p) with _ | u
  · rcases hi : mapGet (pruneExpired s now).inflightBySignature (buildSignature p) with _ | e
    · simp only [acquireOpenzaloOutboundDedupeSlot, hg, hi] at h
      simp only [Option.isSome_none, Bool.false_eq_true, if_false, if_neg] at h
      obtain ⟨hl, hr⟩ := Prod.mk.injEq .. ▸ h
      refine ⟨?_, rfl, rfl, hr.symm⟩
      cases hl
      rfl
    · simp only [acquireOpenzaloOutboundDedupeSlot, hg, hi] at h
      simp at h
  · exfalso
    have hgt := pruned_recent_gt s now (buildSignature p) u hg
    simp only [acquireOpenzaloOutboundDedupeSlot, hg] at h
    rw [if_pos (by simpa using hgt)] at h
    simp at h

theorem acquire_recent_of_pruned_hit (p : SendParams) (s : DedupeState) (now u : Nat)
    (h : mapGet (pruneExpired s now).recentBySignature (buildSignature p) = some u)
    (hu : now < u) :
    (acquireOpenzaloOutboundDedupeSlot p s now).1 = .rejected .recent := by
  simp [acquireOpenzaloOutboundDedupeSlot, h, hu]

/-- C3: after a successful acquire, releasing the ticket with `sent = true` at
time `T` suppresses every re-acquire of the same signature strictly before
`T + 15000` with reason `recent`, and allows it at or after expiry; releasing
with `sent = false` leaves the recently-sent window untouched, so an immediate
re-acquire of the same signature succeeds.  The bound on the recently-sent map
size rules out the overflow eviction path (5000 live entries). -/
theorem outbound_dedupe_recent_window
    (p : SendParams) (s : DedupeState) (t0 T t : Nat)
    (tk : DedupeTicket) (s1 : DedupeState)
    (hacq : acquireOpenzaloOutboundDedupeSlot p s t0 = (.acquired tk, s1))
    (hcap : s.recentBySignature.length < MAX_OPENZALO_OUTBOUND_RECENT_SIGNATURES) :
    (t < T + OPENZALO_OUTBOUND_RECENT_TTL_MS →
      (acquireOpenzaloOutboundDedupeSlot p
        (releaseOpenzaloOutboundDedupeSlot s1 tk true T) t).1 = .rejected .recent) ∧
    (T + OPENZALO_OUTBOUND_RECENT_TTL_MS ≤ t →
      (acquireOpenzaloOutboundDedupeSlot p
        (releaseOpenzaloOutboundDedupeSlot s1 tk true T) t).1.isAcquired = true) ∧
    (releaseOpenzaloOutboundDedupeSlot s1 tk false T).recentBySignature =
      s1.recentBySignature ∧
    (acquireOpenzaloOutboundDedupeSlot p
      (releaseOpenzaloOutboundDedupeSlot s1 tk false T) t).1.isAcquired = true := by
  obtain ⟨htk, hrecnone, hinfnone, hs1⟩ := acquire_acquired_inv p s t0 tk s1 hacq
  subst htk
  subst hs1
  have hticketGet :
      mapGet (mapSet (pruneExpired s t0).inflightByTicket
        ((pruneExpired s t0).nextTicketId + 1)
        ⟨(pruneExpired s t0).nextTicketId + 1, buildSignature p, t0⟩)
        ((pruneExpired s t0).nextTicketId + 1) =
      some ⟨(pruneExpired s t0).nextTicketId + 1, buildSignature p, t0⟩ :=
    mapGet_set_self _ _ _
  have hsetRecent :
      mapSet (pruneExpired s t0).recentBySignature (buildSignature p)
        (T + OPENZALO_OUTBOUND_RECENT_TTL_MS) =
      (pruneExpired s t0).recentBySignature ++
        [(buildSignature p, T + OPENZALO_OUTBOUND_RECENT_TTL_MS)] :=
    mapSet_append_of_none _ _ _ hrecnone
  have hlenPruned :
      (pruneExpired s t0).recentBySignature.length ≤ s.recentBySignature.length := by
    simp only [pruneExpired]
    exact List.length_filter_le _ _
  have hevict :
      evictRecentOverflow ((pruneExpired s t0).recentBySignature ++
        [(buildSignature p, T + OPENZALO_OUTBOUND_RECENT_TTL_MS)]) =
      (pruneExpired s t0).recentBySignature ++
        [(buildSignature p, T + OPENZALO_OUTBOUND_RECENT_TTL_MS)] := by
    apply evictRecentOverflow_noop
    rw [List.length_append]
    simp only [List.length_singleton]
    omega
  have hrelT :
      releaseOpenzaloOutboundDedupeSlot
        ⟨mapSet (pruneExpired s t0).inflightBySignature (buildSignature p)
            ⟨(pruneExpired s t0).nextTicketId + 1, buildSignature p, t0⟩,
          mapSet (pruneExpired s t0).inflightByTicket
            ((pruneExpired s t0).nextTicketId + 1)
            ⟨(pruneExpired s t0).nextTicketId + 1, buildSignature p, t0⟩,
          (pruneExpired s t0).recentBySignature,
          (pruneExpired s t0).nextTicketId + 1⟩
        ⟨(pruneExpired s t0).nextTicketId + 1, buildSignature p⟩ true T =
      ⟨mapDel (mapSet (pruneExpired s t0).inflightBySignature (buildSignature p)
          ⟨(pruneExpired s t0).nextTicketId + 1, buildSignature p, t0⟩) (buildSignature p),
        mapDel (mapSet (pruneExpired s t0).inflightByTicket
          ((pruneExpired s t0).nextTicketId + 1)
          ⟨(pruneExpired s t0).nextTicketId + 1, buildSignature p, t0⟩)
          ((pruneExpired s t0).nextTicketId + 1),
        (pruneExpired s t0).recentBySignature ++
          [(buildSignature p, T + OPENZALO_OUTBOUND_RECENT_TTL_MS)],
        (pruneExpired s t0).nextTicketId + 1⟩ := by
    unfold releaseOpenzaloOutboundDedupeSlot
    rw [hticketGet]
    simp only [ne_eq, not_true_eq_false, if_false, if_true, ite_false, ite_true]
    rw [hsetRecent, hevict]
  have hrelF :
      releaseOpenzaloOutboundDedupeSlot
        ⟨mapSet (pruneExpired s t0).inflightBySignature (buildSignature p)
            ⟨(pruneExpired s t0).nextTicketId + 1, buildSignature p, t0⟩,
          mapSet (pruneExpired s t0).inflightByTicket
            ((pruneExpired s t0).nextTicketId + 1)
            ⟨(pruneExpired s t0).nextTicketId + 1, buildSignature p, t0⟩,
          (pruneExpired s t0).recentBySignature,
          (pruneExpired s t0).nextTicketId + 1⟩
        ⟨(pruneExpired s t0).nextTicketId + 1, buildSignature p⟩ false T =
      ⟨mapDel (mapSet (pruneExpired s t0).inflightBySignature (buildSignature p)
          ⟨(pruneExpired s t0).nextTicketId + 1, buildSignature p, t0⟩) (buildSignature p),
        mapDel (mapSet (pruneExpired s t0).inflightByTicket
          ((pruneExpired s t0).nextTicketId + 1)
          ⟨(pruneExpired s t0).nextTicketId + 1, buildSignature p, t0⟩)
          ((pruneExpired s t0).nextTicketId + 1),
        (pruneExpired s t0).recentBySignature,
        (pruneExpired s t0).nextTicketId + 1⟩ := by
    unfold releaseOpenzaloOutboundDedupeSlot
    rw [hticketGet]
    simp only [ne_eq, not_true_eq_false, if_false, if_true, ite_false, ite_true]
    simp
  refine ⟨?_, ?_, ?_, ?_⟩
  · intro ht
    rw [hrelT]
    apply acquire_recent_of_pruned_hit _ _ _ (T + OPENZALO_OUTBOUND_RECENT_TTL_MS)
    · simp only [pruneExpired]
      rw [List.filter_append]
      have hkeep :
          List.filter (fun q => ¬(q.2 ≤ t))
            [(buildSignature p, T + OPENZALO_OUTBOUND_RECENT_TTL_MS)] =
          [(buildSignature p, T + OPENZALO_OUTBOUND_RECENT_TTL_MS)] := by
        simp
        omega
      rw [hkeep]
      exact mapGet_append_right _ _ _ (mapGet_filter_none _ _ _ hrecnone)
    · exact ht
  · intro ht
    rw [hrelT]
    apply acquire_of_pruned_misses
    · simp only [pruneExpired]
      rw [List.filter_append]
      have hdrop :
          List.filter (fun q => ¬(q.2 ≤ t))
            [(buildSignature p, T + OPENZALO_OUTBOUND_RECENT_TTL_MS)] = [] := by
        simp
        omega
      rw [hdrop, List.append_nil]
      exact mapGet_filter_none _ _ _ hrecnone
    · simp only [pruneExpired]
      exact mapGet_filter_none _ _ _ (mapGet_del_self _ _)
  · rw [hrelF]
  · rw [hrelF]
    apply acquire_of_pruned_misses
    · simp only [pruneExpired]
      exact mapGet_filter_none _ _ _ hrecnone
    · simp only [pruneExpired]
      exact mapGet_filter_none _ _ _ (mapGet_del_self _ _)

/-- Concrete witness for C3: acquire at 2000, release sent at 2100, re-acquire
refused at 10000 and allowed at 17100. -/
theorem outbound_dedupe_recent_window_witness :
    (acquireOpenzaloOutboundDedupeSlot
        ⟨"main", some "s1", "group:42", .media, some "caption", some "https://e/a.jpg", none⟩
        emptyDedupeState 2000 =
      (.acquired ⟨1, buildSignature
          ⟨"main", some "s1", "group:42", .media, some "caption", some "https://e/a.jpg", none⟩⟩,
        (acquireOpenzaloOutboundDedupeSlot
          ⟨"main", some "s1", "group:42", .media, some "caption", some "https://e/a.jpg", none⟩
          emptyDedupeState 2000).2) ∧
      ([] : List (String × Nat)).length < MAX_OPENZALO_OUTBOUND_RECENT_SIGNATURES) ∧
    (10000 < 2100 + OPENZALO_OUTBOUND_RECENT_TTL_MS →
      (acquireOpenzaloOutboundDedupeSlot
        ⟨"main", some "s1", "group:42", .media, some "caption", some "https://e/a.jpg", none⟩
        (releaseOpenzaloOutboundDedupeSlot
          (acquireOpenzaloOutboundDedupeSlot
            ⟨"main", some "s1", "group:42", .media, some "caption", some "https://e/a.jpg", none⟩
            emptyDedupeState 2000).2
          ⟨1, buildSignature
            ⟨"main", some "s1", "group:42", .media, some "caption", some "https://e/a.jpg", none⟩⟩
          true 2100) 10000).1 = .rejected .recent) := by
  have happ := acquire_first_state
    ⟨"main", some "s1", "group:42", .media, some "caption", some "https://e/a.jpg", none⟩ 2000
  refine ⟨⟨?_, by decide⟩, ?_⟩
  · rw [happ]
  · intro ht
    exact (outbound_dedupe_recent_window
      ⟨"main", some "s1", "group:42", .media, some "caption", some "https://e/a.jpg", none⟩
      emptyDedupeState 2000 2100 10000 _ _ (by rw [happ]) (by decide)).1 ht

/-! ### Inbound pipeline (`src/src/monitor.ts`, `processMessage`)

`processMessage` interleaves pure policy decisions with calls into the host
runtime (routing, session store, reply dispatcher).  The embedding keeps the
decision structure of the source verbatim and treats the values that the
source obtains from the payload, the config resolution helpers and the host
runtime as fields of `InboundEvent` (each field is named after the `const` of
`processMessage` it models).  The per-account mutable sets
`mentionDetectionFailureWarnings` / `humanPassSessions`, restricted to the one
key `processMessage` consults, are `MonitorState`.  The observable effects of
one call are collected in `ProcessOutcome`. -/

inductive GroupPolicy
  | gopen
  | allowlist
  | disabled
deriving DecidableEq

inductive DmPolicy
  | pairing
  | allowlist
  | dopen
  | disabled
deriving DecidableEq

inductive MentionFailureMode
  | allow
  | deny
  | allowWithWarning
deriving DecidableEq

inductive HumanPassCommand
  | hpOn
  | hpOff
deriving DecidableEq

/-- The account-config fields `processMessage` reads. -/
structure AccountCfg where
  groupPolicy : Option GroupPolicy
  dmPolicy : Option DmPolicy
  groupMentionDetectionFailure : Option MentionFailureMode
  sendFailureNotice : Option Bool
  sendFailureMessage : Option String

/-- Per-message inputs of `processMessage`: payload-derived values plus the
results of the external helper calls the source makes, in source order. -/
structure InboundEvent where
  hasInboundContext : Bool
  isGroup : Bool
  groupAllowed : Bool
  mentionIds : List String
  botUserId : Option String
  senderAllowedForCommands : Bool
  commandAuthorized : Option Bool
  isBuiltinControlCommand : Bool
  humanPassCommand : Option HumanPassCommand
  shouldRequireMention : Bool
  historyLimit : Nat
  turnSentReply : Bool
  turnHadDispatchError : Bool
  turnHadTypingError : Bool

/-- Warning / human-pass membership for the keys of this message. -/
structure MonitorState where
  warningEmitted : Bool
  humanPassActive : Bool

/-- Source: `groupPolicy = account.config.groupPolicy ?? defaultGroupPolicy ?? "open"`. -/
def resolveGroupPolicy (cfg : AccountCfg) (defaultGroupPolicy : Option GroupPolicy) :
    GroupPolicy :=
  cfg.groupPolicy.getD (defaultGroupPolicy.getD .gopen)

/-- Source: `dmPolicy = account.config.dmPolicy ?? "pairing"`. -/
def resolveDmPolicy (cfg : AccountCfg) : DmPolicy :=
  cfg.dmPolicy.getD .pairing

/-- Source: `canDetectMentionByUid = Boolean(isGroup && normalizedBotUserId)`. -/
def canDetectMentionByUid (ev : InboundEvent) : Bool :=
  ev.isGroup && ev.botUserId.isSome

/-- Source: `wasMentionedByUid = canDetectMentionByUid && normalizedBotUserId ?
mentionIds.includes(normalizedBotUserId) : false`. -/
def wasMentionedByUid (ev : InboundEvent) : Bool :=
  canDetectMentionByUid ev &&
    (match ev.botUserId with
     | some b => ev.mentionIds.contains b
     | none => false)

/-- Source: `isControlCommand = isBuiltinControlCommand || humanPassCommand !== null`. -/
def isControlCommand (ev : InboundEvent) : Bool :=
  ev.isBuiltinControlCommand || ev.humanPassCommand.isSome

/-- Source: `canManageHumanPass = commandAuthorized === true || senderAllowedForCommands`. -/
def canManageHumanPass (ev : InboundEvent) : Bool :=
  ev.commandAuthorized == some true || ev.senderAllowedForCommands

/-- Source: `canRunControlCommand = commandAuthorized === true ||
(humanPassCommand !== null && canManageHumanPass)`. -/
def canRunControlCommand (ev : InboundEvent) : Bool :=
  ev.commandAuthorized == some true || (ev.humanPassCommand.isSome && canManageHumanPass ev)

/-- Source: `shouldBypassMention = isControlCommand && shouldRequireMention &&
canRunControlCommand`. -/
def shouldBypassMention (ev : InboundEvent) : Bool :=
  isControlCommand ev && ev.shouldRequireMention && canRunControlCommand ev

/-- Source: `effectiveWasMentioned = shouldBypassMention || wasMentionedByUid`. -/
def effectiveWasMentioned (ev : InboundEvent) : Bool :=
  shouldBypassMention ev || wasMentionedByUid ev

/-- Which `return` (or the final dispatch) of `processMessage` the message
reaches, in the source order of the checks. -/
inductive InboundRoute
  | dropNoContent
  | dropGroupPolicyDisabled
  | dropGroupNotAllowlisted
  | dropDmDisabled
  | dropDmSenderBlocked
  | dropUnauthorizedControlCommand
  | dropHumanPassDenied
  | humanPassToggle (cmd : HumanPassCommand)
  | skipHumanPass
  | dropMentionRequired
  | dropMentionDetectionUnavailable
  | proceed
deriving DecidableEq

/-- The control flow of `processMessage` (`src/src/monitor.ts`): content
check, group policy, DM policy, unauthorized-control-command drop, human-pass
command handling, human-pass skip, then the mention gate with its
detection-failure modes.  Note that in the detection-unavailable case the
source returns (drops) only when the one-time warning for this
(account, chat, mode) key has not been emitted yet and the mode defaults to
`deny`; otherwise execution falls through to the dispatch. -/
def routeInbound (cfg : AccountCfg) (defaultGroupPolicy : Option GroupPolicy)
    (ev : InboundEvent) (st : MonitorState) : InboundRoute :=
  if ev.hasInboundContext = false then .dropNoContent
  else if ev.isGroup = true ∧ resolveGroupPolicy cfg defaultGroupPolicy = .disabled then
    .dropGroupPolicyDisabled
  else if ev.isGroup = true ∧ resolveGroupPolicy cfg defaultGroupPolicy = .allowlist ∧
      ev.groupAllowed = false then
    .dropGroupNotAllowlisted
  else if ev.isGroup = false ∧ resolveDmPolicy cfg = .disabled then .dropDmDisabled
  else if ev.isGroup = false ∧ resolveDmPolicy cfg ≠ .dopen ∧
      ev.senderAllowedForCommands = false then
    .dropDmSenderBlocked
  else if ev.isGroup = true ∧ isControlCommand ev = true ∧ canRunControlCommand ev = false then
    .dropUnauthorizedControlCommand
  else
    match ev.humanPassCommand with
    | some cmd =>
      if canManageHumanPass ev = false then .dropHumanPassDenied
      else .humanPassToggle cmd
    | none =>
      if st.humanPassActive = true then .skipHumanPass
      else if ev.isGroup = true ∧ ev.shouldRequireMention = true then
        if shouldBypassMention ev = true then .proceed
        else if canDetectMentionByUid ev = true then
          if effectiveWasMentioned ev = false then .dropMentionRequired else .proceed
        else if st.warningEmitted = false ∧
            cfg.groupMentionDetectionFailure.getD .deny = .deny then
          .dropMentionDetectionUnavailable
        else .proceed
      else .proceed

/-- Whether the mention-detection-failure branch adds the one-time warning key
(source: `mentionDetectionFailureWarnings.add(warningKey)` under
`allow-with-warning` or `deny`). -/
def mentionWarningAdded (cfg : AccountCfg) (ev : InboundEvent) (st : MonitorState) : Bool :=
  ev.isGroup && ev.shouldRequireMention && !(shouldBypassMention ev) &&
    !(canDetectMentionByUid ev) && !st.warningEmitted &&
    (cfg.groupMentionDetectionFailure.getD .deny == .allowWithWarning ||
      cfg.groupMentionDetectionFailure.getD .deny == .deny)

/-- Source: `shouldSendFailureNotice = account.config.sendFailureNotice !== false`. -/
def shouldSendFailureNoticeCfg (cfg : AccountCfg) : Bool :=
  cfg.sendFailureNotice != some false

/-- Source constant `OPENZALO_DEFAULT_FAILURE_NOTICE_MESSAGE` (`src/src/constants.ts`). -/
def OPENZALO_DEFAULT_FAILURE_NOTICE_MESSAGE : String :=
  "Some problem occurred, could not send a reply."

/-- Source: `failureNoticeMessage = account.config.sendFailureMessage?.trim() ?
trim : OPENZALO_DEFAULT_FAILURE_NOTICE_MESSAGE`. -/
def failureNoticeMessage (cfg : AccountCfg) : String :=
  match cfg.sendFailureMessage with
  | some m => if m.trim ≠ "" then m.trim else OPENZALO_DEFAULT_FAILURE_NOTICE_MESSAGE
  | none => OPENZALO_DEFAULT_FAILURE_NOTICE_MESSAGE

/-- Source: `if ((hadDispatchError || hadTypingError) && !sentReply &&
shouldSendFailureNotice) sendMessageOpenzalo(chatId, failureNoticeMessage, ...)`. -/
def failureNoticeDecision (cfg : AccountCfg)
    (hadDispatchError hadTypingError sentReply : Bool) : Option String :=
  if (hadDispatchError || hadTypingError) && !sentReply && shouldSendFailureNoticeCfg cfg then
    some (failureNoticeMessage cfg)
  else
    none

/-- Observable effects of one `processMessage` call. -/
structure ProcessOutcome where
  recordedSession : Bool
  humanPassNotice : Bool
  fetchedHistory : Bool
  dispatched : Bool
  typingWired : Bool
  failureNotice : Option String
  warningEmittedAfter : Bool
  humanPassActiveAfter : Bool
deriving DecidableEq

/-- Effects of `processMessage` for one inbound message: `recordedSession` is
the `recordInboundSession` call, `humanPassNotice` the human-pass status
message, `fetchedHistory` the group recent-history fetch, `dispatched` the
reply dispatch, `typingWired` the typing-callback wiring, `failureNotice` the
fallback failure message, and the two `After` fields the updated monitor
state.  Session recording happens before the unauthorized-command, human-pass
and mention checks, so every route from `dropUnauthorizedControlCommand` on
has `recordedSession = true`. -/
def processMessage (cfg : AccountCfg) (defaultGroupPolicy : Option GroupPolicy)
    (ev : InboundEvent) (st : MonitorState) : ProcessOutcome :=
  match routeInbound cfg defaultGroupPolicy ev st with
  | .dropNoContent =>
    ⟨false, false, false, false, false, none, st.warningEmitted, st.humanPassActive⟩
  | .dropGroupPolicyDisabled =>
    ⟨false, false, false, false, false, none, st.warningEmitted, st.humanPassActive⟩
  | .dropGroupNotAllowlisted =>
    ⟨false, false, false, false, false, none, st.warningEmitted, st.humanPassActive⟩
  | .dropDmDisabled =>
    ⟨false, false, false, false, false, none, st.warningEmitted, st.humanPassActive⟩
  | .dropDmSenderBlocked =>
    ⟨false, false, false, false, false, none, st.warningEmitted, st.humanPassActive⟩
  | .dropUnauthorizedControlCommand =>
    ⟨true, false, false, false, false, none, st.warningEmitted, st.humanPassActive⟩
  | .dropHumanPassDenied =>
    ⟨true, false, false, false, false, none, st.warningEmitted, st.humanPassActive⟩
  | .humanPassToggle cmd =>
    ⟨true, true, false, false, false, none, st.warningEmitted,
      match cmd with
      | .hpOn => true
      | .hpOff => false⟩
  | .skipHumanPass =>
    ⟨true, false, false, false, false, none, st.warningEmitted, st.humanPassActive⟩
  | .dropMentionRequired =>
    ⟨true, false, false, false, false, none,
      st.warningEmitted || mentionWarningAdded cfg ev st, st.humanPassActive⟩
  | .dropMentionDetectionUnavailable =>
    ⟨true, false, false, false, false, none,
      st.warningEmitted || mentionWarningAdded cfg ev st, st.humanPassActive⟩
  | .proceed =>
    ⟨true, false, ev.isGroup && decide (0 < ev.historyLimit), true, true,
      failureNoticeDecision cfg ev.turnHadDispatchError ev.turnHadTypingError
        ev.turnSentReply,
      st.warningEmitted || mentionWarningAdded cfg ev st, st.humanPassActive⟩

/-- C1 (failing-input evaluation): in a mention-required group where mention
detection is structurally impossible (no bot user id) and
`groupMentionDetectionFailure` is unset (default `deny`), the FIRST message is
dropped and marks the one-time warning key — but a SECOND message of the same
conversation (warning key already present) falls through the gate and is
dispatched.  The claim "every such message is dropped" fails on the code. -/
theorem mention_gate_fails_open_after_first_warning :
    (processMessage ⟨some .gopen, none, none, none, none⟩ none
      ⟨true, true, true, [], none, false, none, false, none, true, 6, true, false, false⟩
      ⟨false, false⟩).dispatched = false ∧
    (processMessage ⟨some .gopen, none, none, none, none⟩ none
      ⟨true, true, true, [], none, false, none, false, none, true, 6, true, false, false⟩
      ⟨false, false⟩).warningEmittedAfter = true ∧
    (processMessage ⟨some .gopen, none, none, none, none⟩ none
      ⟨true, true, true, [], none, false, none, false, none, true, 6, true, false, false⟩
      ⟨true, false⟩).dispatched = true := by
  decide

/-- C4: in a mention-required group, a control-command message from a sender
authorized to run control commands is dispatched (the mention gate is
bypassed) even without a mention; the same message from an unauthorized
sender is dropped before the reply dispatch and before the group-history
context fetch (it is, however, recorded into the session store first, as the
source records the session before the authorization check). -/
theorem control_command_bypasses_mention_gate
    (cfg : AccountCfg) (d : Option GroupPolicy) (ev : InboundEvent) (st : MonitorState)
    (hcontent : ev.hasInboundContext = true)
    (hgroup : ev.isGroup = true)
    (hreq : ev.shouldRequireMention = true)
    (hcmd : isControlCommand ev = true)
    (hhp : ev.humanPassCommand = none)
    (_hnot : wasMentionedByUid ev = false)
    (hhpa : st.humanPassActive = false)
    (hpol : resolveGroupPolicy cfg d ≠ .disabled)
    (hallow : resolveGroupPolicy cfg d = .allowlist → ev.groupAllowed = true) :
    (canRunControlCommand ev = true →
      (processMessage cfg d ev st).dispatched = true) ∧
    (canRunControlCommand ev = false →
      (processMessage cfg d ev st).dispatched = false ∧
      (processMessage cfg d ev st).fetchedHistory = false ∧
      (processMessage cfg d ev st).typingWired = false ∧
      (processMessage cfg d ev st).failureNotice = none ∧
      (processMessage cfg d ev st).recordedSession = true) := by
  constructor
  · intro hauth
    have hroute : routeInbound cfg d ev st = .proceed := by
      unfold routeInbound
      rw [if_neg (by simp [hcontent])]
      rw [if_neg (by rintro ⟨_, hdis⟩; exact hpol hdis)]
      rw [if_neg (by rintro ⟨_, hal, hga⟩; rw [hallow hal] at hga; cases hga)]
      rw [if_neg (by rintro ⟨hig, _⟩; rw [hgroup] at hig; cases hig)]
      rw [if_neg (by rintro ⟨hig, _, _⟩; rw [hgroup] at hig; cases hig)]
      rw [if_neg (by rintro ⟨_, _, hc⟩; rw [hauth] at hc; cases hc)]
      rw [hhp]
      simp [hhpa, hgroup, hreq, shouldBypassMention, hcmd, hauth]
    simp [processMessage, hroute]
  · intro hnauth
    have hroute : routeInbound cfg d ev st = .dropUnauthorizedControlCommand := by
      unfold routeInbound
      rw [if_neg (by simp [hcontent])]
      rw [if_neg (by rintro ⟨_, hdis⟩; exact hpol hdis)]
      rw [if_neg (by rintro ⟨_, hal, hga⟩; rw [hallow hal] at hga; cases hga)]
      rw [if_neg (by rintro ⟨hig, _⟩; rw [hgroup] at hig; cases hig)]
      rw [if_neg (by rintro ⟨hig, _, _⟩; rw [hgroup] at hig; cases hig)]
      rw [if_pos ⟨hgroup, hcmd, hnauth⟩]
    simp [processMessage, hroute]

/-- Concrete witness for C4: authorized sender, builtin control command, no
mention, mention-required open group. -/
theorem control_command_bypasses_mention_gate_witness :
    ((true : Bool) = true ∧ canRunControlCommand
      ⟨true, true, true, [], none, false, some true, true, none, true, 6, true, false, false⟩ =
      true) ∧
    ((canRunControlCommand
        ⟨true, true, true, [], none, false, some true, true, none, true, 6, true, false, false⟩ =
        true →
      (processMessage ⟨some .gopen, none, none, none, none⟩ none
        ⟨true, true, true, [], none, false, some true, true, none, true, 6, true, false, false⟩
        ⟨false, false⟩).dispatched = true) ∧
    (canRunControlCommand
        ⟨true, true, true, [], none, false, some true, true, none, true, 6, true, false, false⟩ =
        false →
      (processMessage ⟨some .gopen, none, none, none, none⟩ none
        ⟨true, true, true, [], none, false, some true, true, none, true, 6, true, false, false⟩
        ⟨false, false⟩).dispatched = false ∧
      (processMessage ⟨some .gopen, none, none, none, none⟩ none
        ⟨true, true, true, [], none, false, some true, true, none, true, 6, true, false, false⟩
        ⟨false, false⟩).fetchedHistory = false ∧
      (processMessage ⟨some .gopen, none, none, none, none⟩ none
        ⟨true, true, true, [], none, false, some true, true, none, true, 6, true, false, false⟩
        ⟨false, false⟩).typingWired = false ∧
      (processMessage ⟨some .gopen, none, none, none, none⟩ none
        ⟨true, true, true, [], none, false, some true, true, none, true, 6, true, false, false⟩
        ⟨false, false⟩).failureNotice = none ∧
      (processMessage ⟨some .gopen, none, none, none, none⟩ none
        ⟨true, true, true, [], none, false, some true, true, none, true, 6, true, false, false⟩
        ⟨false, false⟩).recordedSession = true)) := by
  refine ⟨⟨rfl, by decide⟩, ?_⟩
  exact control_command_bypasses_mention_gate
    ⟨some .gopen, none, none, none, none⟩ none
    ⟨true, true, true, [], none, false, some true, true, none, true, 6, true, false, false⟩
    ⟨false, false⟩
    (by decide) (by decide) (by decide) (by decide) (by decide) (by decide) (by decide)
    (by decide) (by decide)

/-- C5: while the human-pass flag is set for the conversation, an inbound
message that is not itself a human-pass command and passes the access gates
is still recorded into the session store but produces no outbound action: no
reply dispatch, no typing wiring, no failure notice, no human-pass status
message. -/
theorem human_pass_suppresses_outbound
    (cfg : AccountCfg) (d : Option GroupPolicy) (ev : InboundEvent) (st : MonitorState)
    (hcontent : ev.hasInboundContext = true)
    (hhp : ev.humanPassCommand = none)
    (hactive : st.humanPassActive = true)
    (hg1 : ev.isGroup = true → resolveGroupPolicy cfg d ≠ .disabled)
    (hg2 : ev.isGroup = true → resolveGroupPolicy cfg d = .allowlist → ev.groupAllowed = true)
    (hd1 : ev.isGroup = false → resolveDmPolicy cfg ≠ .disabled)
    (hd2 : ev.isGroup = false → resolveDmPolicy cfg ≠ .dopen →
      ev.senderAllowedForCommands = true) :
    (processMessage cfg d ev st).recordedSession = true ∧
    (processMessage cfg d ev st).dispatched = false ∧
    (processMessage cfg d ev st).typingWired = false ∧
    (processMessage cfg d ev st).failureNotice = none ∧
    (processMessage cfg d ev st).humanPassNotice = false := by
  have hroute : routeInbound cfg d ev st = .dropUnauthorizedControlCommand ∨
      routeInbound cfg d ev st = .skipHumanPass := by
    unfold routeInbound
    rw [if_neg (by simp [hcontent])]
    rw [if_neg (by rintro ⟨hig, hdis⟩; exact hg1 hig hdis)]
    rw [if_neg (by rintro ⟨hig, hal, hga⟩; rw [hg2 hig hal] at hga; cases hga)]
    rw [if_neg (by rintro ⟨hig, hdis⟩; exact hd1 hig hdis)]
    rw [if_neg (by rintro ⟨hig, hnd, hsa⟩; rw [hd2 hig hnd] at hsa; cases hsa)]
    by_cases hun : ev.isGroup = true ∧ isControlCommand ev = true ∧
        canRunControlCommand ev = false
    · rw [if_pos hun]
      exact Or.inl rfl
    · rw [if_neg hun]
      right
      rw [hhp]
      simp [hactive]
  rcases hroute with h | h <;> simp [processMessage, h]

/-- Concrete witness for C5: plain group message with human pass active. -/
theorem human_pass_suppresses_outbound_witness :
    ((true : Bool) = true ∧ (true : Bool) = true) ∧
    ((processMessage ⟨some .gopen, none, none, none, none⟩ none
      ⟨true, true, true, [], some "bot", false, none, false, none, false, 6, true, false, false⟩
      ⟨false, true⟩).recordedSession = true ∧
    (processMessage ⟨some .gopen, none, none, none, none⟩ none
      ⟨true, true, true, [], some "bot", false, none, false, none, false, 6, true, false, false⟩
      ⟨false, true⟩).dispatched = false ∧
    (processMessage ⟨some .gopen, none, none, none, none⟩ none
      ⟨true, true, true, [], some "bot", false, none, false, none, false, 6, true, false, false⟩
      ⟨false, true⟩).typingWired = false ∧
    (processMessage ⟨some .gopen, none, none, none, none⟩ none
      ⟨true, true, true, [], some "bot", false, none, false, none, false, 6, true, false, false⟩
      ⟨false, true⟩).failureNotice = none ∧
    (processMessage ⟨some .gopen, none, none, none, none⟩ none
      ⟨true, true, true, [], some "bot", false, none, false, none, false, 6, true, false, false⟩
      ⟨false, true⟩).humanPassNotice = false) := by
  refine ⟨⟨rfl, rfl⟩, ?_⟩
  exact human_pass_suppresses_outbound
    ⟨some .gopen, none, none, none, none⟩ none
    ⟨true, true, true, [], some "bot", false, none, false, none, false, 6, true, false, false⟩
    ⟨false, true⟩
    (by decide) (by decide) (by decide) (by decide) (by decide) (by decide) (by decide)

theorem dispatched_iff_proceed (cfg : AccountCfg) (d : Option GroupPolicy)
    (ev : InboundEvent) (st : MonitorState) :
    (processMessage cfg d ev st).dispatched = true ↔
      routeInbound cfg d ev st = .proceed := by
  cases h : routeInbound cfg d ev st <;> simp [processMessage, h]

/-- C6: for a dispatched turn that ends with zero successful sends and at
least one error (dispatch or typing start), with the failure-notice feature
enabled (`sendFailureNotice` unset or true), exactly the resolved failure
message is sent — the configured `sendFailureMessage` (trimmed) or the fixed
default text when unset; a turn with at least one successful send produces no
failure notice. -/
theorem failure_notice_on_failed_turn
    (cfg : AccountCfg) (d : Option GroupPolicy) (ev : InboundEvent) (st : MonitorState)
    (hdisp : (processMessage cfg d ev st).dispatched = true) :
    (ev.turnSentReply = false →
      (ev.turnHadDispatchError = true ∨ ev.turnHadTypingError = true) →
      cfg.sendFailureNotice ≠ some false →
      (processMessage cfg d ev st).failureNotice = some (failureNoticeMessage cfg) ∧
      (cfg.sendFailureMessage = none →
        (processMessage cfg d ev st).failureNotice =
          some OPENZALO_DEFAULT_FAILURE_NOTICE_MESSAGE)) ∧
    (ev.turnSentReply = true → (processMessage cfg d ev st).failureNotice = none) := by
  have hroute := (dispatched_iff_proceed cfg d ev st).mp hdisp
  have hfn : (processMessage cfg d ev st).failureNotice =
      failureNoticeDecision cfg ev.turnHadDispatchError ev.turnHadTypingError
        ev.turnSentReply := by
    simp [processMessage, hroute]
  constructor
  · intro hs he hn
    have hcond : ((ev.turnHadDispatchError || ev.turnHadTypingError) &&
        !ev.turnSentReply && shouldSendFailureNoticeCfg cfg) = true := by
      rcases he with he | he <;>
        simp [he, hs, shouldSendFailureNoticeCfg, bne_iff_ne, hn]
    rw [hfn]
    unfold failureNoticeDecision
    rw [if_pos hcond]
    refine ⟨rfl, ?_⟩
    intro hm
    simp [failureNoticeMessage, hm]
  · intro hs
    rw [hfn]
    simp [failureNoticeDecision, hs]

/-- Concrete witness for C6: failed dispatch, default config. -/
theorem failure_notice_on_failed_turn_witness :
    ((processMessage ⟨some .gopen, none, none, none, none⟩ none
        ⟨true, true, true, ["bot"], some "bot", false, none, false, none, true, 6,
          false, true, false⟩ ⟨false, false⟩).dispatched = true ∧
      (false : Bool) = false ∧ ((true : Bool) = true ∨ (false : Bool) = true) ∧
      (none : Option Bool) ≠ some false) ∧
    ((processMessage ⟨some .gopen, none, none, none, none⟩ none
        ⟨true, true, true, ["bot"], some "bot", false, none, false, none, true, 6,
          false, true, false⟩ ⟨false, false⟩).failureNotice =
      some OPENZALO_DEFAULT_FAILURE_NOTICE_MESSAGE) := by
  refine ⟨⟨by decide, rfl, Or.inl rfl, by decide⟩, ?_⟩
  exact ((failure_notice_on_failed_turn ⟨some .gopen, none, none, none, none⟩ none
    ⟨true, true, true, ["bot"], some "bot", false, none, false, none, true, 6,
      false, true, false⟩ ⟨false, false⟩ (by decide)).1 rfl (Or.inl rfl)
    (by decide)).2 rfl

/-! ### Listener restart scheduling (`src/src/monitor.ts`, `startListener`) -/

/-- The restart delay hard-coded in both failure handlers of `startListener`
(the listener-error callback and the start-failure catch both run
`setTimeout(() => startListener(), 5000)`). -/
def OPENZALO_LISTENER_RESTART_DELAY_MS : Nat := 5000

/-- Delay scheduled before the n-th consecutive reconnect attempt.
`startListener` keeps no attempt counter and no backoff or health state: the
delay is the same constant for every attempt. -/
def listenerRestartDelay (_consecutiveFailures : Nat) : Nat :=
  OPENZALO_LISTENER_RESTART_DELAY_MS

/-- Both failure handlers of `startListener` return without scheduling when
`stopped || abortSignal.aborted`, and otherwise schedule another
`startListener` after the fixed delay (no crash propagates: the error is
logged and converted into this schedule). -/
def scheduleListenerRestart (stopped aborted : Bool) : Option Nat :=
  if stopped || aborted then none else some OPENZALO_LISTENER_RESTART_DELAY_MS

/-- C8 counterexample: the reconnect delays of `startListener` do not follow
any doubling-up-to-a-ceiling schedule: the delay is 5000 ms on every attempt,
so no base/ceiling pair with `base < ceiling` matches the claimed
exponential backoff. -/
theorem listener_restart_no_backoff_counterexample :
    ¬∃ (base ceil : Nat), base < ceil ∧ listenerRestartDelay 0 = base ∧
      ∀ n, listenerRestartDelay (n + 1) = min (2 * listenerRestartDelay n) ceil := by
  rintro ⟨base, ceil, hlt, h0, hstep⟩
  have h1 := hstep 0
  simp only [listenerRestartDelay, OPENZALO_LISTENER_RESTART_DELAY_MS] at h0 h1
  omega

/-- C8 (amended): when the listener stream terminates or fails to start, the
monitor does not crash — the failure handler schedules a reconnect — after a
fixed 5000 ms delay, identical for every consecutive attempt (no doubling, no
jitter, no stability reset); after stop/abort no reconnect is scheduled. -/
theorem listener_restart_fixed_delay (stopped aborted : Bool) (n m : Nat) :
    listenerRestartDelay n = listenerRestartDelay m ∧
    listenerRestartDelay n = 5000 ∧
    scheduleListenerRestart stopped aborted =
      (if stopped || aborted then none else some (listenerRestartDelay n)) := by
  exact ⟨rfl, rfl, rfl⟩

/-! ### Transport runner and send-result normalization
(`src/unnamed/part_005` `runOpenzca`, `src/src/send.ts` `sendMessageOpenzalo`
and `extractMessageId`) -/

structure ZcaResult where
  ok : Bool
  stdout : String
  stderr : String
  exitCode : Int
deriving DecidableEq

/-- The close-handler of `runOpenzca` (`src/unnamed/part_005`): after a
timeout the result is not ok with a fallback stderr and exit code
`code ?? 124`; otherwise `ok` is exactly `code === 0`, stdout and stderr are
trimmed, and a null exit code maps to 1. -/
def runOpenzcaResult (timedOut : Bool) (code : Option Int) (stdout stderr : String) :
    ZcaResult :=
  if timedOut then
    ⟨false, stdout, if stderr = "" then "Command timed out" else stderr, code.getD 124⟩
  else
    ⟨code == some 0, stdout.trim, stderr.trim, code.getD 1⟩

/-- ASCII approximation of the JS regex class `\s`. -/
def isWsChar (c : Char) : Bool :=
  c = ' ' || c = '\t' || c = '\n' || c = '\r' || c = '\x0b' || c = '\x0c'

/-- The JS regex class `[a-zA-Z0-9_-]`. -/
def isIdChar (c : Char) : Bool :=
  c.isAlphanum || c = '_' || c = '-'

/-- Case-insensitive literal match: strip `pat` (lowercase) from the front. -/
def stripCI : List Char → List Char → Option (List Char)
  | [], rest => some rest
  | _ :: _, [] => none
  | p :: ps, c :: cs => if c.toLower = p then stripCI ps cs else none

/-- After the literal `message`, the regex continues `[_\s]?id`. -/
def matchAfterMessage (rest : List Char) : Option (List Char) :=
  match stripCI ['i', 'd'] rest with
  | some r => some r
  | none =>
    match rest with
    | c :: cs => if c = '_' || isWsChar c then stripCI ['i', 'd'] cs else none
    | [] => none

/-- The regex tail `[:\s]+(\S+)`: one or more separators, then the captured
maximal run of non-whitespace (with the greedy backtracking of the JS
engine when the separator run reaches the end of the input). -/
def matchSepAndCapture (rest : List Char) : Option (List Char) :=
  let isSep : Char → Bool := fun c => c = ':' || isWsChar c
  let run := rest.takeWhile isSep
  let after := rest.drop run.length
  if run.length = 0 then none
  else
    match after with
    | c :: _ =>
      if isWsChar c then none
      else some (after.takeWhile (fun ch => !isWsChar ch))
    | [] =>
      match ((List.range run.length).filter
          (fun q => decide (1 ≤ q) && !isWsChar (run.getD q ' '))).max? with
      | some q => some ((run.drop q).takeWhile (fun ch => !isWsChar ch))
      | none => none

/-- Leftmost match of `/message[_\s]?id[:\s]+(\S+)/i`, returning the capture. -/
def findMessageIdCapture : List Char → Option (List Char)
  | [] => none
  | c :: cs =>
    match stripCI ['m', 'e', 's', 's', 'a', 'g', 'e'] (c :: cs) with
    | some afterKey =>
      match matchAfterMessage afterKey with
      | some afterId =>
        match matchSepAndCapture afterId with
        | some cap => some cap
        | none => findMessageIdCapture cs
      | none => findMessageIdCapture cs
    | none => findMessageIdCapture cs

/-- `extractMessageId` (`src/src/send.ts`): first the
`/message[_\s]?id[:\s]+(\S+)/i` match, then the first whitespace-separated
word of the trimmed stdout when it is a plausible id (`/^[a-zA-Z0-9_-]+$/`). -/
def extractMessageId (stdout : String) : Option String :=
  match findMessageIdCapture stdout.data with
  | some cap => some (String.mk cap)
  | none =>
    let firstWord := stdout.trim.data.takeWhile (fun c => !isWsChar c)
    if firstWord ≠ [] ∧ firstWord.all isIdChar then some (String.mk firstWord) else none

structure OpenzaloSendResult where
  ok : Bool
  messageId : Option String
  error : Option String
deriving DecidableEq

/-- The result branch of `sendMessageOpenzalo` (`src/src/send.ts` lines
94-104): success iff `result.ok`; only on success is the message id parsed
from stdout; otherwise stderr (or a fixed text) is reported as the error. -/
def sendMessageResultFromRun (result : ZcaResult) : OpenzaloSendResult :=
  if result.ok then ⟨true, extractMessageId result.stdout, none⟩
  else
    ⟨false, none,
      some (if result.stderr = "" then "Failed to send message" else result.stderr)⟩

/-- C9 counterexample: a transport run that exits with code 1 while printing a
recognizable in-band message-id marker on stdout is reported as a failure by
`sendMessageOpenzalo` — the in-band success evidence is ignored whenever the
exit code is nonzero. -/
theorem action_success_requires_zero_exit_counterexample :
    (sendMessageResultFromRun (runOpenzcaResult false (some 1) "message_id: 9123" "")).ok =
      false ∧
    extractMessageId "message_id: 9123" = some "9123" ∧
    (runOpenzcaResult false (some 1) "message_id: 9123" "").exitCode = 1 := by
  refine ⟨by decide, by decide, by decide⟩

/-- C9 (amended): an action execution reports success exactly when the
transport process exits with code 0 and did not time out; stdout is consulted
only to extract a message id after such a success, and any nonzero exit code
(or timeout) is reported as failure regardless of the stdout content. -/
theorem action_success_iff_zero_exit (timedOut : Bool) (code : Option Int)
    (stdout stderr : String) :
    ((sendMessageResultFromRun (runOpenzcaResult timedOut code stdout stderr)).ok = true ↔
      (timedOut = false ∧ code = some 0)) ∧
    (sendMessageResultFromRun (runOpenzcaResult timedOut code stdout stderr)).ok =
      (runOpenzcaResult timedOut code stdout stderr).ok := by
  cases timedOut
  · by_cases hc : code = some 0
    · constructor
      · simp [runOpenzcaResult, sendMessageResultFromRun, hc]
      · simp [runOpenzcaResult, sendMessageResultFromRun, hc]
    · constructor
      · simp [runOpenzcaResult, sendMessageResultFromRun, hc]
      · simp [runOpenzcaResult, sendMessageResultFromRun, hc]
  · constructor
    · simp [sendMessageResultFromRun, runOpenzcaResult]
    · simp [sendMessageResultFromRun, runOpenzcaResult]

/-! ### Undo/unsend id resolution (`src/src/channel.ts`)

Embeds the per-account undo-ref cache (`cacheUndoRef`, `findCachedUndoRef`),
the recent-history recovery (`extractUndoRefFromRecentRow`,
`isOwnRecentMessageSender`, `resolveLatestOwnUndoRefFromRecent`) and the id
resolution chain of `handleAction` for `action = "unsend"`.  The cache map
`openzaloUndoRefCache` is keyed by account id; the embedding works with the
one account list the handler touches.  The duplicated
`readActionMessageField` / `readStringParam` readings of the same key are
modelled as one optional field per key. -/

def OPENZALO_UNDO_REF_MAX_AGE_MS : Nat := 30 * 60 * 1000

def OPENZALO_UNDO_REF_MAX_PER_ACCOUNT : Nat := 40

structure UndoRef where
  threadId : String
  isGroup : Bool
  msgId : String
  cliMsgId : String
  ts : Nat
deriving DecidableEq

/-- Source `cacheUndoRef`: drop duplicates of the same ref, prepend the new
one, keep only refs younger than the max age, cap at 40 entries. -/
def cacheUndoRef (cache : List UndoRef) (ref : UndoRef) (now : Nat) : List UndoRef :=
  let deduped := cache.filter (fun item =>
    ¬(item.threadId = ref.threadId ∧ item.isGroup = ref.isGroup ∧
      item.msgId = ref.msgId ∧ item.cliMsgId = ref.cliMsgId))
  ((ref :: deduped).filter
      (fun item => now - item.ts ≤ OPENZALO_UNDO_REF_MAX_AGE_MS)).take
    OPENZALO_UNDO_REF_MAX_PER_ACCOUNT

/-- The `alive` pruning inside `findCachedUndoRef`. -/
def undoRefAlive (cache : List UndoRef) (now : Nat) : List UndoRef :=
  cache.filter (fun item => now - item.ts ≤ OPENZALO_UNDO_REF_MAX_AGE_MS)

/-- Source `findCachedUndoRef`: without a thread id the newest alive ref
(refs are newest-first), otherwise the first alive ref of that thread
(matching `isGroup` when given). -/
def findCachedUndoRef (cache : List UndoRef) (now : Nat)
    (threadId : Option String) (isGroup : Option Bool) : Option UndoRef :=
  let alive := undoRefAlive cache now
  match threadId with
  | none => alive.head?
  | some tid =>
    alive.find? (fun item =>
      decide (item.threadId = tid) &&
        (match isGroup with
         | some g => item.isGroup == g
         | none => true))

/-- One row of the `msg recent` payload, with the aliased id locations the
source probes (`undo.msgId`, `msgId`, `data.msgId`, `messageId`, ...). -/
structure RawRecentRow where
  undoMsgId : Option String
  undoCliMsgId : Option String
  msgId : Option String
  cliMsgId : Option String
  dataMsgId : Option String
  dataCliMsgId : Option String
  messageId : Option String
  senderId : Option String
  uidFrom : Option String
  dataUidFrom : Option String
  senderObjId : Option String
  ts : Option Int
  dataTs : Option Int
deriving DecidableEq

structure ParsedUndoRow where
  msgId : Option String
  cliMsgId : Option String
  senderId : Option String
  ts : Option Int
deriving DecidableEq

/-- Source `extractUndoRefFromRecentRow`: probe the aliased locations in the
fixed priority order (`normalizeActionId` trimming is folded into the
`Option String` modelling; numeric and string `ts` both become `Option Int`). -/
def extractUndoRefFromRecentRow (r : RawRecentRow) : ParsedUndoRow :=
  ⟨r.undoMsgId <|> r.msgId <|> r.dataMsgId <|> r.messageId,
    r.undoCliMsgId <|> r.cliMsgId <|> r.dataCliMsgId,
    r.senderId <|> r.uidFrom <|> r.dataUidFrom <|> r.senderObjId,
    r.ts <|> r.dataTs⟩

/-- Source `isOwnRecentMessageSender`: unattributed rows, the `"0"` self
sentinel, and an unknown bot id all pass; otherwise the sender must equal the
bot's own id. -/
def isOwnRecentMessageSender (senderId : Option String) (botUserId : Option String) : Bool :=
  match senderId with
  | none => true
  | some s =>
    if s = "0" then true
    else
      match botUserId with
      | none => true
      | some b => s = b

def MAX_SAFE_INTEGER : Int := 9007199254740991

/-- Source: `tsScore = typeof ts === "number" ? ts : Number.MAX_SAFE_INTEGER - index`. -/
def rowScore (row : ParsedUndoRow) (index : Nat) : Int :=
  match row.ts with
  | some t => t
  | none => MAX_SAFE_INTEGER - (index : Int)

/-- Whether a parsed row can win the selection loop. -/
def eligibleUndoRow (row : ParsedUndoRow) (botUserId : Option String) : Prop :=
  row.msgId.isSome = true ∧ row.cliMsgId.isSome = true ∧
    isOwnRecentMessageSender row.senderId botUserId = true

instance (row : ParsedUndoRow) (bot : Option String) :
    Decidable (eligibleUndoRow row bot) := by
  unfold eligibleUndoRow
  infer_instance

/-- The selection loop of `resolveLatestOwnUndoRefFromRecent`: walk the rows
with their indices, keep the best-scoring own row carrying both ids
(strict `>` keeps the earliest of equal scores). -/
def pickBestUndoRow (botUserId : Option String) :
    List ParsedUndoRow → Nat → Option (String × String × Int) →
      Option (String × String × Int)
  | [], _, best => best
  | row :: rest, index, best =>
    let best2 :=
      match row.msgId, row.cliMsgId with
      | some m, some c =>
        if isOwnRecentMessageSender row.senderId botUserId then
          match best with
          | none => some (m, c, rowScore row index)
          | some (bm, bc, bs) =>
            if rowScore row index > bs then some (m, c, rowScore row index)
            else some (bm, bc, bs)
        else best
      | _, _ => best
    pickBestUndoRow botUserId rest (index + 1) best2

/-- Source `resolveLatestOwnUndoRefFromRecent`: `msg recent` failure (or an
empty/winnerless row set) yields nothing, otherwise the ids of the best own
row. -/
def resolveLatestOwnUndoRefFromRecent (recentOk : Bool) (rows : List RawRecentRow)
    (botUserId : Option String) : Option (String × String) :=
  if recentOk = false then none
  else
    match pickBestUndoRow botUserId (rows.map extractUndoRefFromRecentRow) 0 none with
    | some (m, c, _) => some (m, c)
    | none => none

/-- The explicit unsend parameters of `handleAction` (one field per key). -/
structure UnsendParams where
  msgIdParam : Option String
  messageIdParam : Option String
  globalMsgIdParam : Option String
  replyToIdFullParam : Option String
  cliMsgIdParam : Option String
  clientMessageIdParam : Option String
  replyToIdParam : Option String
  hasExplicitTarget : Bool
  threadId : String
  isGroup : Bool

/-- The reply-context ids supplied via `toolContext`. -/
structure UnsendContext where
  ctxReplyToIdFull : Option String
  ctxReplyToId : Option String

/-- Source: the `msgId` fallback chain (params msgId / messageId /
globalMsgId / replyToIdFull, then the tool context replyToIdFull). -/
def initialUnsendMsgId (p : UnsendParams) (ctx : UnsendContext) : Option String :=
  p.msgIdParam <|> p.messageIdParam <|> p.globalMsgIdParam <|> p.replyToIdFullParam <|>
    ctx.ctxReplyToIdFull

/-- Source: the `cliMsgId` fallback chain (params cliMsgId / clientMessageId /
replyToId, then the tool context replyToId). -/
def initialUnsendCliMsgId (p : UnsendParams) (ctx : UnsendContext) : Option String :=
  p.cliMsgIdParam <|> p.clientMessageIdParam <|> p.replyToIdParam <|> ctx.ctxReplyToId

/-- The executed undo command (`msg undo <msgId> <cliMsgId> <threadId>`) plus
whether the live recent-history query was issued to resolve it. -/
structure UnsendExec where
  threadId : String
  isGroup : Bool
  msgId : String
  cliMsgId : String
  usedHistoryQuery : Bool
deriving DecidableEq

/-- The id-resolution chain of `handleAction` for `action = "unsend"`
(`src/src/channel.ts` lines 1271-1363): explicit parameters and tool-context
ids, then the cached undo ref for the same target thread, then (only when no
explicit target was supplied) the most recent cached ref across any thread
(which also retargets the undo), then the live `msg recent` query filtered to
own messages, and finally the user-facing error when both ids could not be
resolved. -/
def handleUnsendAction (p : UnsendParams) (ctx : UnsendContext) (cache : List UndoRef)
    (now : Nat) (recentOk : Bool) (rows : List RawRecentRow)
    (botUserId : Option String) : Except String UnsendExec :=
  let msgId0 := initialUnsendMsgId p ctx
  let cli0 := initialUnsendCliMsgId p ctx
  let step2 :=
    if msgId0.isNone ∨ cli0.isNone then
      match findCachedUndoRef cache now (some p.threadId) (some p.isGroup) with
      | some ref => (msgId0 <|> some ref.msgId, cli0 <|> some ref.cliMsgId)
      | none => (msgId0, cli0)
    else (msgId0, cli0)
  let step3 :=
    if ((step2.1.isNone ∨ step2.2.isNone) ∧ p.hasExplicitTarget = false) then
      match findCachedUndoRef cache now none none with
      | some ref =>
        ((ref.threadId, ref.isGroup), step2.1 <|> some ref.msgId, step2.2 <|> some ref.cliMsgId)
      | none => ((p.threadId, p.isGroup), step2.1, step2.2)
    else ((p.threadId, p.isGroup), step2.1, step2.2)
  match step3.2.1, step3.2.2 with
  | some m, some c => .ok ⟨step3.1.1, step3.1.2, m, c, false⟩
  | om, oc =>
    match resolveLatestOwnUndoRefFromRecent recentOk rows botUserId with
    | some (m, c) => .ok ⟨step3.1.1, step3.1.2, om.getD m, oc.getD c, true⟩
    | none =>
      .error ("Could not resolve msgId/cliMsgId for unsend. " ++
        "Reply directly to the target message, provide both IDs, " ++
        "or specify the target thread/group explicitly.")

theorem pickBestUndoRow_mono (bot : Option String) :
    ∀ (l : List ParsedUndoRow) (idx : Nat) (bm bc : String) (bs : Int)
      (r : String × String × Int),
      pickBestUndoRow bot l idx (some (bm, bc, bs)) = some r → bs ≤ r.2.2 := by
  intro l
  induction l with
  | nil =>
    intro idx bm bc bs r h
    simp only [pickBestUndoRow] at h
    cases h
    exact le_refl _
  | cons row rest ih =>
    intro idx bm bc bs r h
    simp only [pickBestUndoRow] at h
    rcases hm : row.msgId with _ | m <;> rw [hm] at h
    · exact ih _ _ _ _ _ h
    · rcases hc : row.cliMsgId with _ | c <;> rw [hc] at h
      · exact ih _ _ _ _ _ h
      · dsimp only at h
        by_cases hown : isOwnRecentMessageSender row.senderId bot = true
        · rw [if_pos hown] at h
          by_cases hgt : rowScore row idx > bs
          · rw [if_pos hgt] at h
            have := ih _ _ _ _ _ h
            omega
          · rw [if_neg hgt] at h
            exact ih _ _ _ _ _ h
        · rw [if_neg hown] at h
          exact ih _ _ _ _ _ h

theorem pickBestUndoRow_spec (bot : Option String) :
    ∀ (l : List ParsedUndoRow) (idx : Nat) (best : Option (String × String × Int))
      (r : String × String × Int),
      pickBestUndoRow bot l idx best = some r →
      (best = some r ∨
        ∃ q ∈ l.enumFrom idx, eligibleUndoRow q.2 bot ∧ q.2.msgId = some r.1 ∧
          q.2.cliMsgId = some r.2.1 ∧ rowScore q.2 q.1 = r.2.2) ∧
      (∀ q ∈ l.enumFrom idx, eligibleUndoRow q.2 bot → rowScore q.2 q.1 ≤ r.2.2) := by
  intro l
  induction l with
  | nil =>
    intro idx best r h
    simp only [pickBestUndoRow] at h
    exact ⟨Or.inl h, by simp [List.enumFrom]⟩
  | cons row rest ih =>
    intro idx best r h
    simp only [pickBestUndoRow] at h
    have henum : (row :: rest).enumFrom idx = (idx, row) :: rest.enumFrom (idx + 1) := by
      simp [List.enumFrom]
    rcases hm : row.msgId with _ | m <;> rw [hm] at h
    · obtain ⟨hsrc, hmax⟩ := ih _ _ _ h
      refine ⟨?_, ?_⟩
      · rcases hsrc with hsrc | ⟨q, hq, hrest⟩
        · exact Or.inl hsrc
        · exact Or.inr ⟨q, by rw [henum]; exact List.mem_cons_of_mem _ hq, hrest⟩
      · intro q hq hel
        rw [henum, List.mem_cons] at hq
        rcases hq with rfl | hq
        · exact absurd hel.1 (by simp [hm])
        · exact hmax q hq hel
    · rcases hc : row.cliMsgId with _ | c <;> rw [hc] at h
      · obtain ⟨hsrc, hmax⟩ := ih _ _ _ h
        refine ⟨?_, ?_⟩
        · rcases hsrc with hsrc | ⟨q, hq, hrest⟩
          · exact Or.inl hsrc
          · exact Or.inr ⟨q, by rw [henum]; exact List.mem_cons_of_mem _ hq, hrest⟩
        · intro q hq hel
          rw [henum, List.mem_cons] at hq
          rcases hq with rfl | hq
          · exact absurd hel.2.1 (by simp [hc])
          · exact hmax q hq hel
      · dsimp only at h
        by_cases hown : isOwnRecentMessageSender row.senderId bot = true
        · rw [if_pos hown] at h
          have heligible : eligibleUndoRow row bot := ⟨by simp [hm], by simp [hc], hown⟩
          rcases best with _ | ⟨bm, bc, bs⟩
          · have hmono := pickBestUndoRow_mono bot rest (idx + 1) m c (rowScore row idx) r h
            obtain ⟨hsrc, hmax⟩ := ih _ _ _ h
            refine ⟨?_, ?_⟩
            · rcases hsrc with hsrc | ⟨q, hq, hrest⟩
              · cases hsrc
                exact Or.inr ⟨(idx, row), by rw [henum]; exact List.mem_cons_self _ _,
                  heligible, by simp [hm], by simp [hc], rfl⟩
              · exact Or.inr ⟨q, by rw [henum]; exact List.mem_cons_of_mem _ hq, hrest⟩
            · intro q hq hel
              rw [henum, List.mem_cons] at hq
              rcases hq with rfl | hq
              · exact hmono
              · exact hmax q hq hel
          · dsimp only at h
            by_cases hgt : rowScore row idx > bs
            · rw [if_pos hgt] at h
              have hmono := pickBestUndoRow_mono bot rest (idx + 1) m c (rowScore row idx) r h
              obtain ⟨hsrc, hmax⟩ := ih _ _ _ h
              refine ⟨?_, ?_⟩
              · rcases hsrc with hsrc | ⟨q, hq, hrest⟩
                · cases hsrc
                  exact Or.inr ⟨(idx, row), by rw [henum]; exact List.mem_cons_self _ _,
                    heligible, by simp [hm], by simp [hc], rfl⟩
                · exact Or.inr ⟨q, by rw [henum]; exact List.mem_cons_of_mem _ hq, hrest⟩
              · intro q hq hel
                rw [henum, List.mem_cons] at hq
                rcases hq with rfl | hq
                · exact hmono
                · exact hmax q hq hel
            · rw [if_neg hgt] at h
              have hmono := pickBestUndoRow_mono bot rest (idx + 1) bm bc bs r h
              obtain ⟨hsrc, hmax⟩ := ih _ _ _ h
              refine ⟨?_, ?_⟩
              · rcases hsrc with hsrc | ⟨q, hq, hrest⟩
                · exact Or.inl hsrc
                · exact Or.inr ⟨q, by rw [henum]; exact List.mem_cons_of_mem _ hq, hrest⟩
              · intro q hq hel
                rw [henum, List.mem_cons] at hq
                rcases hq with rfl | hq
                · show rowScore row idx ≤ r.2.2
                  omega
                · exact hmax q hq hel
        · rw [if_neg hown] at h
          obtain ⟨hsrc, hmax⟩ := ih _ _ _ h
          refine ⟨?_, ?_⟩
          · rcases hsrc with hsrc | ⟨q, hq, hrest⟩
            · exact Or.inl hsrc
            · exact Or.inr ⟨q, by rw [henum]; exact List.mem_cons_of_mem _ hq, hrest⟩
          · intro q hq hel
            rw [henum, List.mem_cons] at hq
            rcases hq with rfl | hq
            · exact absurd hel.2.2 hown
            · exact hmax q hq hel

/-- C7: the unsend action resolves the msgId/cliMsgId pair by trying, in
order: explicit tool parameters (and tool/reply-context ids), the cached undo
ref for the same target thread, then — only when no explicit target was
supplied — the most recent cached ref across any thread (retargeting the
undo), and finally the live recent-message query; when a cached pair for the
target thread exists and no explicit ids were given, the cached pair is used
without issuing any history query; when the whole chain fails the action
returns an error; and the live query only ever returns the ids of a row
authored by the bot (or an unattributed/self-sentinel row) with the highest
score among eligible rows. -/
theorem unsend_resolution_chain
    (p : UnsendParams) (ctx : UnsendContext) (cache : List UndoRef) (now : Nat)
    (recentOk : Bool) (rows : List RawRecentRow) (bot : Option String) :
    (∀ m c, p.msgIdParam = some m → p.cliMsgIdParam = some c →
      handleUnsendAction p ctx cache now recentOk rows bot =
        .ok ⟨p.threadId, p.isGroup, m, c, false⟩) ∧
    (initialUnsendMsgId p ctx = none → initialUnsendCliMsgId p ctx = none →
      ∀ ref, findCachedUndoRef cache now (some p.threadId) (some p.isGroup) = some ref →
      handleUnsendAction p ctx cache now recentOk rows bot =
        .ok ⟨p.threadId, p.isGroup, ref.msgId, ref.cliMsgId, false⟩) ∧
    (initialUnsendMsgId p ctx = none → initialUnsendCliMsgId p ctx = none →
      findCachedUndoRef cache now (some p.threadId) (some p.isGroup) = none →
      p.hasExplicitTarget = false →
      ∀ ref, findCachedUndoRef cache now none none = some ref →
      handleUnsendAction p ctx cache now recentOk rows bot =
        .ok ⟨ref.threadId, ref.isGroup, ref.msgId, ref.cliMsgId, false⟩) ∧
    (initialUnsendMsgId p ctx = none → initialUnsendCliMsgId p ctx = none →
      findCachedUndoRef cache now (some p.threadId) (some p.isGroup) = none →
      p.hasExplicitTarget = true →
      ∀ m c, resolveLatestOwnUndoRefFromRecent recentOk rows bot = some (m, c) →
      handleUnsendAction p ctx cache now recentOk rows bot =
        .ok ⟨p.threadId, p.isGroup, m, c, true⟩) ∧
    (initialUnsendMsgId p ctx = none → initialUnsendCliMsgId p ctx = none →
      findCachedUndoRef cache now (some p.threadId) (some p.isGroup) = none →
      findCachedUndoRef cache now none none = none →
      resolveLatestOwnUndoRefFromRecent recentOk rows bot = none →
      ∃ e, handleUnsendAction p ctx cache now recentOk rows bot = .error e) ∧
    (∀ m c, resolveLatestOwnUndoRefFromRecent recentOk rows bot = some (m, c) →
      ∃ s : Int,
        (∃ q ∈ (rows.map extractUndoRefFromRecentRow).enumFrom 0,
          eligibleUndoRow q.2 bot ∧ q.2.msgId = some m ∧ q.2.cliMsgId = some c ∧
            rowScore q.2 q.1 = s) ∧
        (∀ q ∈ (rows.map extractUndoRefFromRecentRow).enumFrom 0,
          eligibleUndoRow q.2 bot → rowScore q.2 q.1 ≤ s)) := by
  refine ⟨?_, ?_, ?_, ?_, ?_, ?_⟩
  · intro m c hm hc
    have hm0 : initialUnsendMsgId p ctx = some m := by
      simp [initialUnsendMsgId, hm]
    have hc0 : initialUnsendCliMsgId p ctx = some c := by
      simp [initialUnsendCliMsgId, hc]
    simp [handleUnsendAction, hm0, hc0]
  · intro hm0 hc0 ref href
    simp [handleUnsendAction, hm0, hc0, href]
  · intro hm0 hc0 hrefT hexp ref href2
    simp [handleUnsendAction, hm0, hc0, hrefT, hexp, href2]
  · intro hm0 hc0 hrefT hexp m c hres
    simp [handleUnsendAction, hm0, hc0, hrefT, hexp, hres]
  · intro hm0 hc0 hrefT hrefA hres
    refine ⟨"Could not resolve msgId/cliMsgId for unsend. " ++
      "Reply directly to the target message, provide both IDs, " ++
      "or specify the target thread/group explicitly.", ?_⟩
    by_cases hexp : p.hasExplicitTarget = true
    · simp [handleUnsendAction, hm0, hc0, hrefT, hexp, hres]
    · simp only [Bool.not_eq_true] at hexp
      simp [handleUnsendAction, hm0, hc0, hrefT, hrefA, hexp, hres]
  · intro m c hres
    unfold resolveLatestOwnUndoRefFromRecent at hres
    rcases hok : recentOk with _ | _
    · rw [hok] at hres
      simp at hres
    · rw [hok] at hres
      simp only [Bool.true_eq_false, if_false, if_neg] at hres
      rcases hpick : pickBestUndoRow bot (rows.map extractUndoRefFromRecentRow) 0 none
        with _ | ⟨bm, bc, bs⟩
      · rw [hpick] at hres
        simp at hres
      · rw [hpick] at hres
        simp only [Option.some_inj, Prod.mk.injEq] at hres
        obtain ⟨rfl, rfl⟩ := hres
        obtain ⟨hsrc, hmax⟩ := pickBestUndoRow_spec bot _ 0 none _ hpick
        rcases hsrc with hsrc | ⟨q, hq, hel, hqm, hqc, hqs⟩
        · cases hsrc
        · exact ⟨bs, ⟨q, hq, hel, hqm, hqc, hqs⟩, hmax⟩

/-- Concrete witness for C7: no explicit ids, explicit target, cached ref for
the target thread — the cached pair is used with no history query. -/
theorem unsend_resolution_chain_witness :
    (initialUnsendMsgId ⟨none, none, none, none, none, none, none, true, "777", true⟩
        ⟨none, none⟩ = none ∧
      initialUnsendCliMsgId ⟨none, none, none, none, none, none, none, true, "777", true⟩
        ⟨none, none⟩ = none ∧
      findCachedUndoRef [⟨"777", true, "m1", "c1", 1000⟩] 2000 (some "777") (some true) =
        some ⟨"777", true, "m1", "c1", 1000⟩) ∧
    handleUnsendAction ⟨none, none, none, none, none, none, none, true, "777", true⟩
        ⟨none, none⟩ [⟨"777", true, "m1", "c1", 1000⟩] 2000 false [] none =
      .ok ⟨"777", true, "m1", "c1", false⟩ := by
  refine ⟨⟨by decide, by decide, by decide⟩, ?_⟩
  exact (unsend_resolution_chain
    ⟨none, none, none, none, none, none, none, true, "777", true⟩ ⟨none, none⟩
    [⟨"777", true, "m1", "c1", 1000⟩] 2000 false [] none).2.1 (by decide) (by decide)
    ⟨"777", true, "m1", "c1", 1000⟩ (by decide)

end Openzalo
